import Mathlib

/-!
Verification development for the MQTT v3.1.1 request-side wire encoder
(MQTT-C, `mqtt_requests.h`).  The repository ships only the interface header
with declarations, the `MQTTConnectFlags` / `MQTTPublishFlags` enumerations
and the topic-count bounds; the encoder bodies (`mqtt_requests.c`) are not
present, so every encoder below is modelled from the specification's
algorithm descriptions (sections 4.1-4.7).  Buffers are lists of byte values;
the C `ssize_t` return value is an `Int`; a call returns the pair of the
signed size and the (possibly updated) destination buffer.
-/

/-- Write `bytes` at the start of `buf`, keeping the tail of `buf` beyond the
written region untouched (models `memcpy` into the caller's buffer). -/
def writeBytes (buf bytes : List Nat) : List Nat :=
  bytes ++ buf.drop bytes.length

/-- Big-endian encoding of a 16-bit integer, always exactly 2 bytes
(spec 4.2: 16-bit integer encoder). -/
def u16be (n : Nat) : List Nat :=
  [n / 256 % 256, n % 256]

/-- Modelled from the spec (4.2, string encoder; `mqtt_requests.c` missing):
a 2-byte big-endian length prefix followed by the raw bytes. -/
def pack_str (s : List Nat) : List Nat :=
  u16be s.length ++ s

/-- An optional string field: an absent field is skipped entirely, a present
one is length-prefixed (spec 4.3: "any absent optional field is simply
skipped, never emitted as a zero-length placeholder"). -/
def opt_str : Option (List Nat) → List Nat
  | none => []
  | some s => pack_str s

/-- True when a present optional string exceeds the 65535-byte limit of the
2-byte length prefix (spec 4.2). -/
def opt_str_too_long : Option (List Nat) → Bool
  | none => false
  | some s => 65535 < s.length

/-- Modelled from the spec (4.1, varint algorithm; `mqtt_requests.c` missing):
repeatedly take the lowest 7 bits, set the continuation bit 0x80 if more
bytes follow, shift right 7 bits, first byte least significant.  The first
argument is structural fuel; `encodeVarint` supplies enough of it. -/
def encodeVarintAux : Nat → Nat → List Nat
  | 0, _ => []
  | fuel + 1, n => if n < 128 then [n] else (n % 128 + 128) :: encodeVarintAux fuel (n / 128)

/-- The base-128 varint encoding of a remaining-length value. -/
def encodeVarint (n : Nat) : List Nat :=
  encodeVarintAux (n + 1) n

/-- Reference decoder for the varint encoding: low 7 bits of each byte,
little-endian 7-bit groups, a byte below 0x80 terminates. -/
def decodeVarint : List Nat → Nat
  | [] => 0
  | b :: rest => if b < 128 then b else b % 128 + 128 * decodeVarint rest

/-- Modelled from the spec (`mqtt.h` is not under `src/`): the MQTT v3.1.1
control packet type codes, placed in bits 7-4 of the control byte. -/
def MQTT_CONTROL_CONNECT : Nat := 1

/-- CONNACK control packet type code. -/
def MQTT_CONTROL_CONNACK : Nat := 2

/-- PUBLISH control packet type code. -/
def MQTT_CONTROL_PUBLISH : Nat := 3

/-- PUBACK control packet type code. -/
def MQTT_CONTROL_PUBACK : Nat := 4

/-- PUBREC control packet type code. -/
def MQTT_CONTROL_PUBREC : Nat := 5

/-- PUBREL control packet type code. -/
def MQTT_CONTROL_PUBREL : Nat := 6

/-- PUBCOMP control packet type code. -/
def MQTT_CONTROL_PUBCOMP : Nat := 7

/-- SUBSCRIBE control packet type code. -/
def MQTT_CONTROL_SUBSCRIBE : Nat := 8

/-- UNSUBSCRIBE control packet type code. -/
def MQTT_CONTROL_UNSUBSCRIBE : Nat := 10

/-- PINGREQ control packet type code. -/
def MQTT_CONTROL_PINGREQ : Nat := 12

/-- DISCONNECT control packet type code. -/
def MQTT_CONTROL_DISCONNECT : Nat := 14

/-- The `struct mqtt_fixed_header` of the source: a control type, the 4-bit
type-specific flags, and the remaining-length value. -/
structure mqtt_fixed_header where
  control_type : Nat
  control_flags : Nat
  remaining_length : Nat

/-- The single control byte: packet type in bits 7-4, flags in bits 3-0
(spec 4.1: one control byte `(type << 4) | flags`). -/
def controlByte (t f : Nat) : Nat :=
  t % 16 * 16 + f % 16

/-- The serialized fixed header: the control byte followed by the varint
encoding of the remaining length (spec 4.1). -/
def fixed_header_bytes (fh : mqtt_fixed_header) : List Nat :=
  controlByte fh.control_type fh.control_flags :: encodeVarint fh.remaining_length

/-- The largest legal remaining-length value (spec 4.1). -/
def MQTT_MAX_REMAINING_LENGTH : Nat := 268435455

/-- Modelled from the spec (4.1; `mqtt_requests.c` missing):
`mqtt_pack_fixed_header`.  A remaining length beyond the 4-byte varint range
is a protocol violation, rejected before encoding; a positive return is the
number of header bytes written and guarantees the whole packet (header plus
`remaining_length` further bytes) fits in the buffer; `0` means the buffer is
too small; nothing is written on a non-positive return. -/
def mqtt_pack_fixed_header (buf : List Nat) (fh : mqtt_fixed_header) : Int × List Nat :=
  if MQTT_MAX_REMAINING_LENGTH < fh.remaining_length then (-1, buf)
  else if buf.length < (fixed_header_bytes fh).length + fh.remaining_length then (0, buf)
  else (((fixed_header_bytes fh).length : Int), writeBytes buf (fixed_header_bytes fh))

/-- Shared shape of every packet builder (spec 2, 5, 6): validate the
semantic inputs first, then compute the full packet size up front and decide
fit-or-no-fit before any byte is written; on success write the packet and
return its exact length. -/
def pack_simple (buf : List Nat) (violation : Bool) (bytes : List Nat) : Int × List Nat :=
  if violation then (-1, buf)
  else if buf.length < bytes.length then (0, buf)
  else ((bytes.length : Int), writeBytes buf bytes)

/-- The `MQTTConnectFlags` enumeration, exactly as in the source
(`mqtt_requests.h` lines 35-45). -/
def MQTT_CONNECT_RESERVED : Nat := 1

/-- `MQTT_CONNECT_CLEAN_SESSION` from the source enumeration. -/
def MQTT_CONNECT_CLEAN_SESSION : Nat := 2

/-- `MQTT_CONNECT_WILL_FLAG` from the source enumeration. -/
def MQTT_CONNECT_WILL_FLAG : Nat := 4

/-- `MQTT_CONNECT_WILL_QOS_0 = (0u & 0x03) << 3` from the source. -/
def MQTT_CONNECT_WILL_QOS_0 : Nat := (0 &&& 0x03) <<< 3

/-- `MQTT_CONNECT_WILL_QOS_1 = (1u & 0x03) << 3` from the source. -/
def MQTT_CONNECT_WILL_QOS_1 : Nat := (1 &&& 0x03) <<< 3

/-- `MQTT_CONNECT_WILL_QOS_2 = (2u & 0x03) << 3` from the source. -/
def MQTT_CONNECT_WILL_QOS_2 : Nat := (2 &&& 0x03) <<< 3

/-- `MQTT_CONNECT_WILL_RETAIN` from the source enumeration. -/
def MQTT_CONNECT_WILL_RETAIN : Nat := 32

/-- `MQTT_CONNECT_PASSWORD` from the source enumeration. -/
def MQTT_CONNECT_PASSWORD : Nat := 64

/-- `MQTT_CONNECT_USER_NAME` from the source enumeration. -/
def MQTT_CONNECT_USER_NAME : Nat := 128

/-- The `MQTTPublishFlags` enumeration, exactly as in the source
(`mqtt_requests.h` lines 101-107): `MQTT_PUBLISH_DUP`. -/
def MQTT_PUBLISH_DUP : Nat := 8

/-- `MQTT_PUBLISH_QOS_0 = ((0u << 1) & 0x06)` from the source. -/
def MQTT_PUBLISH_QOS_0 : Nat := (0 <<< 1) &&& 0x06

/-- `MQTT_PUBLISH_QOS_1 = ((1u << 1) & 0x06)` from the source. -/
def MQTT_PUBLISH_QOS_1 : Nat := (1 <<< 1) &&& 0x06

/-- `MQTT_PUBLISH_QOS_2 = ((2u << 1) & 0x06)` from the source. -/
def MQTT_PUBLISH_QOS_2 : Nat := (2 <<< 1) &&& 0x06

/-- `MQTT_PUBLISH_RETAIN` from the source enumeration. -/
def MQTT_PUBLISH_RETAIN : Nat := 0x01

/-- `MQTT_SUBSCRIBE_REQUEST_MAX_NUM_TOPICS` from the source
(`mqtt_requests.h` line 178); the unsubscribe bound has the same value. -/
def MQTT_SUBSCRIBE_REQUEST_MAX_NUM_TOPICS : Nat := 8

/-- Modelled from the spec (4.3; `mqtt_requests.c` missing): the protocol
violations of the CONNECT builder.  Will topic and will message must be
supplied both-or-neither; a password requires a user name; the caller may set
only the clean-session, will-QoS and will-retain bits of the flags byte (the
presence bits and the reserved bit are computed by the encoder); will QoS and
will retain must be 0 when there is no will; every present string is bounded
by the 65535-byte prefix limit. -/
def connect_violation (client_id : List Nat) (will_topic will_message : Option (List Nat))
    (user_name password : Option (List Nat)) (connect_flags : Nat) : Bool :=
  (will_topic.isSome != will_message.isSome) ||
  (password.isSome && user_name.isNone) ||
  ((connect_flags % 256) &&& 0xC5 != 0) ||
  (will_topic.isNone && ((connect_flags % 256) &&& 0x38 != 0)) ||
  65535 < client_id.length ||
  opt_str_too_long will_topic || opt_str_too_long will_message ||
  opt_str_too_long user_name || opt_str_too_long password

/-- The connect-flags byte actually emitted: the caller-writable bits plus
the will/user-name/password presence bits derived from which optional
arguments are supplied (spec 4.3). -/
def connect_flags_byte (will_topic user_name password : Option (List Nat))
    (connect_flags : Nat) : Nat :=
  (connect_flags % 256) |||
  (if will_topic.isSome then MQTT_CONNECT_WILL_FLAG else 0) |||
  (if user_name.isSome then MQTT_CONNECT_USER_NAME else 0) |||
  (if password.isSome then MQTT_CONNECT_PASSWORD else 0)

/-- The CONNECT payload: client id then the optional will topic, will
message, user name and password, each length-prefixed, absent fields
skipped (spec 4.3). -/
def connect_payload (client_id : List Nat)
    (will_topic will_message user_name password : Option (List Nat)) : List Nat :=
  pack_str client_id ++ opt_str will_topic ++ opt_str will_message ++
  opt_str user_name ++ opt_str password

/-- The CONNECT variable header: protocol name "MQTT" length-prefixed,
protocol level 4, the flags byte, the 16-bit keep-alive — 10 bytes
(spec 4.3). -/
def connect_var_header (will_topic user_name password : Option (List Nat))
    (connect_flags keep_alive : Nat) : List Nat :=
  [0, 4, 77, 81, 84, 84, 4, connect_flags_byte will_topic user_name password connect_flags] ++
  u16be keep_alive

/-- The full CONNECT packet: fixed header with the derived remaining length,
then variable header and payload (spec 4.3). -/
def connect_bytes (client_id : List Nat)
    (will_topic will_message user_name password : Option (List Nat))
    (connect_flags keep_alive : Nat) : List Nat :=
  fixed_header_bytes ⟨MQTT_CONTROL_CONNECT, 0,
    10 + (connect_payload client_id will_topic will_message user_name password).length⟩ ++
  connect_var_header will_topic user_name password connect_flags keep_alive ++
  connect_payload client_id will_topic will_message user_name password

/-- Modelled from the spec (4.3; `mqtt_requests.c` missing):
`mqtt_pack_connection_request`. -/
def mqtt_pack_connection_request (buf : List Nat) (client_id : List Nat)
    (will_topic will_message user_name password : Option (List Nat))
    (connect_flags keep_alive : Nat) : Int × List Nat :=
  pack_simple buf
    (connect_violation client_id will_topic will_message user_name password connect_flags)
    (connect_bytes client_id will_topic will_message user_name password connect_flags keep_alive)

/-- The QoS level encoded in bits 1-2 of the PUBLISH flags byte. -/
def publish_qos (publish_flags : Nat) : Nat :=
  publish_flags / 2 % 4

/-- Modelled from the spec (4.4, sections 3 and 7; `mqtt_requests.c`
missing): the protocol violations of the PUBLISH builder — missing or
oversized topic name, QoS value 3, or a total remaining length beyond the
varint range. -/
def publish_violation (topic_name : List Nat) (application_message : List Nat)
    (publish_flags : Nat) : Bool :=
  topic_name.isEmpty || 65535 < topic_name.length || publish_qos publish_flags == 3 ||
  MQTT_MAX_REMAINING_LENGTH <
    2 + topic_name.length + (if publish_qos publish_flags != 0 then 2 else 0) +
      application_message.length

/-- The full PUBLISH packet: fixed header, length-prefixed topic name, the
packet id iff QoS is nonzero, then the raw message bytes with no length
prefix (spec 4.4). -/
def publish_bytes (topic_name : List Nat) (packet_id : Nat)
    (application_message : List Nat) (publish_flags : Nat) : List Nat :=
  fixed_header_bytes ⟨MQTT_CONTROL_PUBLISH, publish_flags % 16,
    (pack_str topic_name ++
      (if publish_qos publish_flags ≠ 0 then u16be packet_id else [])).length +
    application_message.length⟩ ++
  pack_str topic_name ++
  (if publish_qos publish_flags ≠ 0 then u16be packet_id else []) ++
  application_message

/-- Modelled from the spec (4.4; `mqtt_requests.c` missing):
`mqtt_pack_publish_request`. -/
def mqtt_pack_publish_request (buf : List Nat) (topic_name : List Nat) (packet_id : Nat)
    (application_message : List Nat) (publish_flags : Nat) : Int × List Nat :=
  pack_simple buf
    (publish_violation topic_name application_message publish_flags)
    (publish_bytes topic_name packet_id application_message publish_flags)

/-- The control flags the PUBACK-family builder enforces per type: 0x02 for
PUBREL, 0x00 for PUBACK, PUBREC and PUBCOMP (spec 4.5). -/
def pubxxx_flags (control_type : Nat) : Nat :=
  if control_type = MQTT_CONTROL_PUBREL then 2 else 0

/-- Modelled from the spec (4.5; `mqtt_requests.c` missing): a control type
other than the four acknowledgement types is a protocol violation. -/
def pubxxx_violation (control_type : Nat) : Bool :=
  !(control_type == MQTT_CONTROL_PUBACK || control_type == MQTT_CONTROL_PUBREC ||
    control_type == MQTT_CONTROL_PUBREL || control_type == MQTT_CONTROL_PUBCOMP)

/-- The full PUBACK/PUBREC/PUBREL/PUBCOMP packet: fixed header with
remaining length exactly 2, then the packet id, no payload (spec 4.5). -/
def pubxxx_bytes (control_type packet_id : Nat) : List Nat :=
  fixed_header_bytes ⟨control_type, pubxxx_flags control_type, 2⟩ ++ u16be packet_id

/-- Modelled from the spec (4.5; `mqtt_requests.c` missing):
`mqtt_pack_pubxxx_request`. -/
def mqtt_pack_pubxxx_request (buf : List Nat) (control_type packet_id : Nat) :
    Int × List Nat :=
  pack_simple buf (pubxxx_violation control_type) (pubxxx_bytes control_type packet_id)

/-- Modelled from the spec (4.6; `mqtt_requests.c` missing): the protocol
violations of the SUBSCRIBE builder — zero entries, more than 8 entries
(never silently truncated), or an oversized topic name. -/
def subscribe_violation (topics : List (List Nat × Nat)) : Bool :=
  topics.isEmpty || MQTT_SUBSCRIBE_REQUEST_MAX_NUM_TOPICS < topics.length ||
  topics.any (fun e => 65535 < e.1.length)

/-- The SUBSCRIBE payload: each entry's length-prefixed name followed by its
requested maximum QoS byte, in the caller-given order (spec 4.6). -/
def subscribe_entries : List (List Nat × Nat) → List Nat
  | [] => []
  | e :: rest => pack_str e.1 ++ [e.2 % 256] ++ subscribe_entries rest

/-- The full SUBSCRIBE packet: fixed header with the mandated control flags
0x02, packet id, then the entries in order (spec 4.6). -/
def subscribe_bytes (packet_id : Nat) (topics : List (List Nat × Nat)) : List Nat :=
  fixed_header_bytes ⟨MQTT_CONTROL_SUBSCRIBE, 2, 2 + (subscribe_entries topics).length⟩ ++
  u16be packet_id ++ subscribe_entries topics

/-- Modelled from the spec (4.6; `mqtt_requests.c` missing):
`mqtt_pack_subscribe_request`, with the sentinel-terminated variadic list
modelled as an explicit ordered list of (name, max QoS) pairs. -/
def mqtt_pack_subscribe_request (buf : List Nat) (packet_id : Nat)
    (topics : List (List Nat × Nat)) : Int × List Nat :=
  pack_simple buf (subscribe_violation topics) (subscribe_bytes packet_id topics)

/-- Modelled from the spec (4.6; `mqtt_requests.c` missing): the protocol
violations of the UNSUBSCRIBE builder. -/
def unsubscribe_violation (topics : List (List Nat)) : Bool :=
  topics.isEmpty || MQTT_SUBSCRIBE_REQUEST_MAX_NUM_TOPICS < topics.length ||
  topics.any (fun n => 65535 < n.length)

/-- The UNSUBSCRIBE payload: the length-prefixed names in the caller-given
order (spec 4.6). -/
def unsubscribe_entries : List (List Nat) → List Nat
  | [] => []
  | n :: rest => pack_str n ++ unsubscribe_entries rest

/-- The full UNSUBSCRIBE packet: fixed header with the mandated control
flags 0x02, packet id, then the names in order (spec 4.6). -/
def unsubscribe_bytes (packet_id : Nat) (topics : List (List Nat)) : List Nat :=
  fixed_header_bytes ⟨MQTT_CONTROL_UNSUBSCRIBE, 2, 2 + (unsubscribe_entries topics).length⟩ ++
  u16be packet_id ++ unsubscribe_entries topics

/-- Modelled from the spec (4.6; `mqtt_requests.c` missing):
`mqtt_pack_unsubscribe_request`, the variadic list modelled as an explicit
ordered list of names. -/
def mqtt_pack_unsubscribe_request (buf : List Nat) (packet_id : Nat)
    (topics : List (List Nat)) : Int × List Nat :=
  pack_simple buf (unsubscribe_violation topics) (unsubscribe_bytes packet_id topics)

/-- Modelled from the spec (4.7; `mqtt_requests.c` missing):
`mqtt_pack_ping_request` — exactly the two-byte fixed header. -/
def mqtt_pack_ping_request (buf : List Nat) : Int × List Nat :=
  pack_simple buf false (fixed_header_bytes ⟨MQTT_CONTROL_PINGREQ, 0, 0⟩)

/-- Modelled from the spec (4.7; `mqtt_requests.c` missing):
`mqtt_pack_disconnect` — exactly the two-byte fixed header. -/
def mqtt_pack_disconnect (buf : List Nat) : Int × List Nat :=
  pack_simple buf false (fixed_header_bytes ⟨MQTT_CONTROL_DISCONNECT, 0, 0⟩)

/-- The three-way return contract (spec 4.1, 6, 7) of a builder call
`result` made with destination `buf`, protocol-violation verdict
`violation` and full packet image `bytes`: negative exactly on a protocol
violation (a property of the inputs alone, so never resolved by a larger
buffer); when the inputs are legal, zero exactly when the destination is
too small for the packet; and a positive return is the exact packet
length, with the packet written and fitting. -/
def obeys_contract (result : Int × List Nat) (buf : List Nat) (violation : Bool)
    (bytes : List Nat) : Prop :=
  (result.1 < 0 ↔ violation = true) ∧
  (violation = false → (result.1 = 0 ↔ buf.length < bytes.length)) ∧
  (0 < result.1 →
    result.1 = (bytes.length : Int) ∧ result.2 = writeBytes buf bytes ∧
    bytes.length ≤ buf.length)

theorem pack_simple_contract (buf : List Nat) (v : Bool) (bs : List Nat)
    (hbs : 0 < bs.length) : obeys_contract (pack_simple buf v bs) buf v bs := by
  unfold obeys_contract pack_simple
  cases v with
  | true =>
    refine ⟨by norm_num, by simp, ?_⟩
    intro h
    norm_num at h
  | false =>
    by_cases h : buf.length < bs.length
    · refine ⟨by simp [h], by simp [h], ?_⟩
      simp [h]
    · refine ⟨?_, ?_, ?_⟩
      · simp [h]
      · intro _
        simp [h]
        exact List.length_pos.mp hbs
      · intro _
        simp [h, Nat.not_lt.mp h]

theorem pack_simple_unchanged (buf : List Nat) (v : Bool) (bs : List Nat)
    (hbs : 0 < bs.length) (hle : (pack_simple buf v bs).1 ≤ 0) :
    (pack_simple buf v bs).2 = buf := by
  unfold pack_simple at *
  cases v with
  | true => simp
  | false =>
    by_cases h : buf.length < bs.length
    · simp [h]
    · simp [h] at hle
      exact absurd hle (List.length_pos.mp hbs)

theorem pack_str_length (s : List Nat) : (pack_str s).length = 2 + s.length := by
  simp [pack_str, u16be]
  omega

theorem fixed_header_bytes_length_pos (fh : mqtt_fixed_header) :
    0 < (fixed_header_bytes fh).length := by
  simp [fixed_header_bytes]

theorem connect_bytes_length_pos (cid : List Nat) (wt wm un pw : Option (List Nat))
    (cf ka : Nat) : 0 < (connect_bytes cid wt wm un pw cf ka).length := by
  simp [connect_bytes, fixed_header_bytes]

theorem publish_bytes_length_pos (t : List Nat) (pid : Nat) (msg : List Nat) (pf : Nat) :
    0 < (publish_bytes t pid msg pf).length := by
  simp [publish_bytes, fixed_header_bytes]

theorem pubxxx_bytes_length_pos (ct pid : Nat) : 0 < (pubxxx_bytes ct pid).length := by
  simp [pubxxx_bytes, fixed_header_bytes]

theorem subscribe_bytes_length_pos (pid : Nat) (topics : List (List Nat × Nat)) :
    0 < (subscribe_bytes pid topics).length := by
  simp [subscribe_bytes, fixed_header_bytes]

theorem unsubscribe_bytes_length_pos (pid : Nat) (topics : List (List Nat)) :
    0 < (unsubscribe_bytes pid topics).length := by
  simp [unsubscribe_bytes, fixed_header_bytes]

/-- C1: every encoder (the fixed-header encoder and all packet builders)
obeys the three-way return contract: the returned signed size is negative
exactly when the inputs violate protocol rules (a property of the inputs
alone, so never resolved by a larger buffer), for legal inputs it is zero
exactly when the destination capacity is insufficient for the packet, and a
positive return is exactly the number of bytes written with the full packet
fitting; the zero and negative classes are disjoint. -/
theorem claim_C1_three_way_return_contract :
    (∀ buf fh,
      ((mqtt_pack_fixed_header buf fh).1 < 0 ↔
        MQTT_MAX_REMAINING_LENGTH < fh.remaining_length) ∧
      (fh.remaining_length ≤ MQTT_MAX_REMAINING_LENGTH →
        ((mqtt_pack_fixed_header buf fh).1 = 0 ↔
          buf.length < (fixed_header_bytes fh).length + fh.remaining_length)) ∧
      (0 < (mqtt_pack_fixed_header buf fh).1 →
        (mqtt_pack_fixed_header buf fh).1 = ((fixed_header_bytes fh).length : Int) ∧
        (mqtt_pack_fixed_header buf fh).2 = writeBytes buf (fixed_header_bytes fh) ∧
        (fixed_header_bytes fh).length + fh.remaining_length ≤ buf.length)) ∧
    (∀ buf cid wt wm un pw cf ka,
      obeys_contract (mqtt_pack_connection_request buf cid wt wm un pw cf ka) buf
        (connect_violation cid wt wm un pw cf) (connect_bytes cid wt wm un pw cf ka)) ∧
    (∀ buf t pid msg pf,
      obeys_contract (mqtt_pack_publish_request buf t pid msg pf) buf
        (publish_violation t msg pf) (publish_bytes t pid msg pf)) ∧
    (∀ buf ct pid,
      obeys_contract (mqtt_pack_pubxxx_request buf ct pid) buf
        (pubxxx_violation ct) (pubxxx_bytes ct pid)) ∧
    (∀ buf pid topics,
      obeys_contract (mqtt_pack_subscribe_request buf pid topics) buf
        (subscribe_violation topics) (subscribe_bytes pid topics)) ∧
    (∀ buf pid topics,
      obeys_contract (mqtt_pack_unsubscribe_request buf pid topics) buf
        (unsubscribe_violation topics) (unsubscribe_bytes pid topics)) ∧
    (∀ buf, obeys_contract (mqtt_pack_ping_request buf) buf false
      (fixed_header_bytes ⟨MQTT_CONTROL_PINGREQ, 0, 0⟩)) ∧
    (∀ buf, obeys_contract (mqtt_pack_disconnect buf) buf false
      (fixed_header_bytes ⟨MQTT_CONTROL_DISCONNECT, 0, 0⟩)) := by
  refine ⟨?_, ?_, ?_, ?_, ?_, ?_, ?_, ?_⟩
  · intro buf fh
    by_cases hmax : MQTT_MAX_REMAINING_LENGTH < fh.remaining_length
    · refine ⟨by simp [mqtt_pack_fixed_header, hmax], ?_, ?_⟩
      · intro hle
        omega
      · intro hpos
        simp [mqtt_pack_fixed_header, hmax] at hpos
    · by_cases hcap : buf.length < (fixed_header_bytes fh).length + fh.remaining_length
      · refine ⟨by simp [mqtt_pack_fixed_header, hmax, hcap], ?_, ?_⟩
        · intro _
          simp [mqtt_pack_fixed_header, hmax, hcap]
        · intro hpos
          simp [mqtt_pack_fixed_header, hmax, hcap] at hpos
      · refine ⟨?_, ?_, ?_⟩
        · simp [mqtt_pack_fixed_header, hmax, hcap]
        · intro _
          simp [mqtt_pack_fixed_header, hmax, hcap]
          exact List.length_pos.mp (fixed_header_bytes_length_pos fh)
        · intro _
          refine ⟨by simp [mqtt_pack_fixed_header, hmax, hcap],
            by simp [mqtt_pack_fixed_header, hmax, hcap], by omega⟩
  · intro buf cid wt wm un pw cf ka
    exact pack_simple_contract buf _ _ (connect_bytes_length_pos cid wt wm un pw cf ka)
  · intro buf t pid msg pf
    exact pack_simple_contract buf _ _ (publish_bytes_length_pos t pid msg pf)
  · intro buf ct pid
    exact pack_simple_contract buf _ _ (pubxxx_bytes_length_pos ct pid)
  · intro buf pid topics
    exact pack_simple_contract buf _ _ (subscribe_bytes_length_pos pid topics)
  · intro buf pid topics
    exact pack_simple_contract buf _ _ (unsubscribe_bytes_length_pos pid topics)
  · intro buf
    exact pack_simple_contract buf _ _ (fixed_header_bytes_length_pos _)
  · intro buf
    exact pack_simple_contract buf _ _ (fixed_header_bytes_length_pos _)

theorem claim_C1_witness :
    (mqtt_pack_connection_request [] [99] none none none none 0 0).1 = 0 ∧
    (mqtt_pack_pubxxx_request [0, 0, 0, 0] MQTT_CONTROL_CONNECT 5).1 < 0 ∧
    (mqtt_pack_ping_request [7, 7]).1 =
      ((fixed_header_bytes ⟨MQTT_CONTROL_PINGREQ, 0, 0⟩).length : Int) := by
  obtain ⟨-, hconn, -, hpubx, -, -, hping, -⟩ := claim_C1_three_way_return_contract
  refine ⟨?_, ?_, ?_⟩
  · exact ((hconn [] [99] none none none none 0 0).2.1 (by decide)).mpr (by decide)
  · exact ((hpubx [0, 0, 0, 0] MQTT_CONTROL_CONNECT 5).1).mpr (by decide)
  · exact ((hping [7, 7]).2.2 (by decide)).1

/-- C3: for every encoder and every input, whenever the call returns zero
(buffer too small) or a negative value (protocol violation), no byte of the
destination buffer is modified. -/
theorem claim_C3_no_partial_writes :
    (∀ buf fh, (mqtt_pack_fixed_header buf fh).1 ≤ 0 →
      (mqtt_pack_fixed_header buf fh).2 = buf) ∧
    (∀ buf cid wt wm un pw cf ka,
      (mqtt_pack_connection_request buf cid wt wm un pw cf ka).1 ≤ 0 →
      (mqtt_pack_connection_request buf cid wt wm un pw cf ka).2 = buf) ∧
    (∀ buf t pid msg pf, (mqtt_pack_publish_request buf t pid msg pf).1 ≤ 0 →
      (mqtt_pack_publish_request buf t pid msg pf).2 = buf) ∧
    (∀ buf ct pid, (mqtt_pack_pubxxx_request buf ct pid).1 ≤ 0 →
      (mqtt_pack_pubxxx_request buf ct pid).2 = buf) ∧
    (∀ buf pid topics, (mqtt_pack_subscribe_request buf pid topics).1 ≤ 0 →
      (mqtt_pack_subscribe_request buf pid topics).2 = buf) ∧
    (∀ buf pid topics, (mqtt_pack_unsubscribe_request buf pid topics).1 ≤ 0 →
      (mqtt_pack_unsubscribe_request buf pid topics).2 = buf) ∧
    (∀ buf, (mqtt_pack_ping_request buf).1 ≤ 0 → (mqtt_pack_ping_request buf).2 = buf) ∧
    (∀ buf, (mqtt_pack_disconnect buf).1 ≤ 0 → (mqtt_pack_disconnect buf).2 = buf) := by
  refine ⟨?_, ?_, ?_, ?_, ?_, ?_, ?_, ?_⟩
  · intro buf fh hle
    by_cases hmax : MQTT_MAX_REMAINING_LENGTH < fh.remaining_length
    · simp [mqtt_pack_fixed_header, hmax]
    · by_cases hcap : buf.length < (fixed_header_bytes fh).length + fh.remaining_length
      · simp [mqtt_pack_fixed_header, hmax, hcap]
      · simp [mqtt_pack_fixed_header, hmax, hcap] at hle
        exact absurd hle (List.length_pos.mp (fixed_header_bytes_length_pos fh))
  · intro buf cid wt wm un pw cf ka hle
    exact pack_simple_unchanged buf _ _ (connect_bytes_length_pos cid wt wm un pw cf ka) hle
  · intro buf t pid msg pf hle
    exact pack_simple_unchanged buf _ _ (publish_bytes_length_pos t pid msg pf) hle
  · intro buf ct pid hle
    exact pack_simple_unchanged buf _ _ (pubxxx_bytes_length_pos ct pid) hle
  · intro buf pid topics hle
    exact pack_simple_unchanged buf _ _ (subscribe_bytes_length_pos pid topics) hle
  · intro buf pid topics hle
    exact pack_simple_unchanged buf _ _ (unsubscribe_bytes_length_pos pid topics) hle
  · intro buf hle
    exact pack_simple_unchanged buf _ _ (fixed_header_bytes_length_pos _) hle
  · intro buf hle
    exact pack_simple_unchanged buf _ _ (fixed_header_bytes_length_pos _) hle

theorem claim_C3_witness :
    (mqtt_pack_fixed_header [] ⟨3, 0, 0⟩).2 = [] ∧
    (mqtt_pack_connection_request [5, 5] [99] (some [1]) none none none 0 0).2 = [5, 5] := by
  obtain ⟨hfh, hconn, -, -, -, -, -, -⟩ := claim_C3_no_partial_writes
  exact ⟨hfh [] ⟨3, 0, 0⟩ (by decide),
    hconn [5, 5] [99] (some [1]) none none none 0 0 (by decide)⟩

theorem lt_pow128_succ (n : Nat) : n < 128 ^ (n + 1) :=
  calc n < 2 ^ n := Nat.lt_two_pow n
  _ ≤ 128 ^ n := Nat.pow_le_pow_left (by norm_num) n
  _ ≤ 128 ^ (n + 1) := Nat.pow_le_pow_right (by norm_num) (by omega)

theorem decode_encodeVarintAux (fuel : Nat) : ∀ n, n < 128 ^ fuel →
    decodeVarint (encodeVarintAux fuel n) = n := by
  induction fuel with
  | zero =>
    intro n hn
    interval_cases n
    simp [encodeVarintAux, decodeVarint]
  | succ fuel ih =>
    intro n hn
    unfold encodeVarintAux
    by_cases h : n < 128
    · simp [decodeVarint, h]
    · have hdiv : n / 128 < 128 ^ fuel := by
        rw [Nat.div_lt_iff_lt_mul (by norm_num)]
        calc n < 128 ^ (fuel + 1) := hn
        _ = 128 ^ fuel * 128 := by rw [pow_succ]
      have hb : ¬ (n % 128 + 128 < 128) := by omega
      simp [h, decodeVarint, hb, ih (n / 128) hdiv]
      omega

theorem decodeVarint_encodeVarint (n : Nat) : decodeVarint (encodeVarint n) = n :=
  decode_encodeVarintAux (n + 1) n (lt_pow128_succ n)

theorem encodeVarintAux_length_le (fuel : Nat) : ∀ k n, n < 128 ^ k → 0 < k →
    (encodeVarintAux fuel n).length ≤ k := by
  induction fuel with
  | zero =>
    intro k n _ _
    simp [encodeVarintAux]
  | succ fuel ih =>
    intro k n hn hk
    unfold encodeVarintAux
    by_cases h : n < 128
    · simp [h]
      omega
    · have hk2 : 2 ≤ k := by
        rcases k with _ | _ | k
        · omega
        · rw [pow_one] at hn
          omega
        · omega
      have hdiv : n / 128 < 128 ^ (k - 1) := by
        rw [Nat.div_lt_iff_lt_mul (by norm_num)]
        calc n < 128 ^ k := hn
        _ = 128 ^ (k - 1) * 128 := by
          rw [← pow_succ]
          congr 1
          omega
      have := ih (k - 1) (n / 128) hdiv (by omega)
      simp [h]
      omega

theorem encodeVarint_length_le (n : Nat) (h : n ≤ MQTT_MAX_REMAINING_LENGTH) :
    (encodeVarint n).length ≤ 4 := by
  have h4 : (128 : Nat) ^ 4 = 268435456 := by norm_num
  refine encodeVarintAux_length_le (n + 1) 4 n ?_ (by norm_num)
  unfold MQTT_MAX_REMAINING_LENGTH at h
  omega

/-- C2: the remaining-length field is encoded by the fixed-header encoder as
the base-128 varint of the remaining length (lowest 7 bits first,
continuation bit 0x80 iff more bytes follow); decoding the produced bytes
reproduces the value, and for the remaining-length values 0, 127, 128,
16383, 16384, 2097151, 2097152, 268435455 the encoded byte count is
1, 1, 2, 2, 3, 3, 4, 4 respectively. -/
theorem claim_C2_varint_roundtrip :
    (∀ buf fh, fh.remaining_length ≤ MQTT_MAX_REMAINING_LENGTH →
      (fixed_header_bytes fh).length + fh.remaining_length ≤ buf.length →
      (mqtt_pack_fixed_header buf fh).2 =
        writeBytes buf (controlByte fh.control_type fh.control_flags ::
          encodeVarint fh.remaining_length)) ∧
    (∀ n, decodeVarint (encodeVarint n) = n) ∧
    (encodeVarint 0).length = 1 ∧ (encodeVarint 127).length = 1 ∧
    (encodeVarint 128).length = 2 ∧ (encodeVarint 16383).length = 2 ∧
    (encodeVarint 16384).length = 3 ∧ (encodeVarint 2097151).length = 3 ∧
    (encodeVarint 2097152).length = 4 ∧ (encodeVarint 268435455).length = 4 := by
  refine ⟨?_, decodeVarint_encodeVarint, by decide, by decide, by decide, by decide,
    by decide, by decide, by decide, by decide⟩
  intro buf fh hmax hcap
  simp only [mqtt_pack_fixed_header, Nat.not_lt.mpr hmax, Nat.not_lt.mpr hcap, if_false]
  rfl

theorem claim_C2_witness :
    (mqtt_pack_fixed_header [9, 9, 9] ⟨3, 0, 1⟩).2 =
      writeBytes [9, 9, 9] (controlByte 3 0 :: encodeVarint 1) ∧
    decodeVarint (encodeVarint 200) = 200 := by
  exact ⟨claim_C2_varint_roundtrip.1 [9, 9, 9] ⟨3, 0, 1⟩ (by decide) (by decide),
    claim_C2_varint_roundtrip.2.1 200⟩

/-- C9: the fixed-header encoder returns a negative value and writes nothing
for every remaining length exceeding 268435455, and no varint encoding of a
legal remaining length occupies more than 4 bytes. -/
theorem claim_C9_reject_oversized_remaining_length :
    (∀ buf fh, MQTT_MAX_REMAINING_LENGTH < fh.remaining_length →
      (mqtt_pack_fixed_header buf fh).1 < 0 ∧ (mqtt_pack_fixed_header buf fh).2 = buf) ∧
    (∀ n, n ≤ MQTT_MAX_REMAINING_LENGTH → (encodeVarint n).length ≤ 4) := by
  refine ⟨?_, encodeVarint_length_le⟩
  intro buf fh hmax
  simp [mqtt_pack_fixed_header, hmax]

theorem claim_C9_witness :
    (mqtt_pack_fixed_header [1, 2, 3, 4, 5] ⟨3, 0, 268435456⟩).1 < 0 ∧
    (mqtt_pack_fixed_header [1, 2, 3, 4, 5] ⟨3, 0, 268435456⟩).2 = [1, 2, 3, 4, 5] ∧
    (encodeVarint 268435455).length ≤ 4 := by
  obtain ⟨hneg, hlen⟩ := claim_C9_reject_oversized_remaining_length
  obtain ⟨h1, h2⟩ := hneg [1, 2, 3, 4, 5] ⟨3, 0, 268435456⟩ (by decide)
  exact ⟨h1, h2, hlen 268435455 (by decide)⟩

/-- C4: every successful CONNECT call with both a will topic and a will
message produces a packet whose connect-flags byte has the will flag
(bit 2) set, and whose fields appear in exactly the order protocol name,
protocol level 4, connect flags, keep-alive, client id, will topic, will
message, user name, password; an absent optional field contributes no bytes
at all rather than a zero-length placeholder. -/
theorem claim_C4_connect_will_and_field_order :
    ∀ buf cid t m un pw cf ka,
      0 < (mqtt_pack_connection_request buf cid (some t) (some m) un pw cf ka).1 →
      ((connect_flags_byte (some t) un pw cf).testBit 2 = true ∧
        MQTT_CONNECT_WILL_FLAG = 2 ^ 2) ∧
      (mqtt_pack_connection_request buf cid (some t) (some m) un pw cf ka).2 =
        writeBytes buf
          (fixed_header_bytes ⟨MQTT_CONTROL_CONNECT, 0,
              10 + (pack_str cid ++ pack_str t ++ pack_str m ++
                opt_str un ++ opt_str pw).length⟩ ++
            ([0, 4, 77, 81, 84, 84, 4, connect_flags_byte (some t) un pw cf] ++ u16be ka) ++
            (pack_str cid ++ pack_str t ++ pack_str m ++ opt_str un ++ opt_str pw)) ∧
      opt_str none = [] := by
  intro buf cid t m un pw cf ka hpos
  have hc := pack_simple_contract buf
    (connect_violation cid (some t) (some m) un pw cf)
    (connect_bytes cid (some t) (some m) un pw cf ka)
    (connect_bytes_length_pos cid (some t) (some m) un pw cf ka)
  obtain ⟨-, hw, -⟩ := hc.2.2 hpos
  refine ⟨⟨?_, by norm_num [MQTT_CONNECT_WILL_FLAG]⟩, ?_, rfl⟩
  · have h42 : Nat.testBit 4 2 = true := by decide
    simp [connect_flags_byte, MQTT_CONNECT_WILL_FLAG, Nat.testBit_or, h42]
  · exact hw.trans rfl

theorem claim_C4_witness :
    ((connect_flags_byte (some [116]) none none 0).testBit 2 = true ∧
      MQTT_CONNECT_WILL_FLAG = 2 ^ 2) ∧
    (mqtt_pack_connection_request (List.replicate 25 9) [99] (some [116]) (some [109])
        none none 0 0).2 =
      writeBytes (List.replicate 25 9)
        (fixed_header_bytes ⟨MQTT_CONTROL_CONNECT, 0,
            10 + (pack_str [99] ++ pack_str [116] ++ pack_str [109] ++
              opt_str none ++ opt_str none).length⟩ ++
          ([0, 4, 77, 81, 84, 84, 4, connect_flags_byte (some [116]) none none 0] ++ u16be 0) ++
          (pack_str [99] ++ pack_str [116] ++ pack_str [109] ++ opt_str none ++ opt_str none)) ∧
    opt_str none = [] :=
  claim_C4_connect_will_and_field_order (List.replicate 25 9) [99] [116] [109]
    none none 0 0 (by decide)

/-- C5: the CONNECT builder returns a negative value whenever the
will/credential presence rules are broken: a will topic supplied without a
will message, a will message supplied without a will topic, or a password
supplied without a user name. -/
theorem claim_C5_connect_presence_rules :
    ∀ buf cid wt wm un pw cf ka,
      (((∃ t, wt = some t) ∧ wm = none) ∨ (wt = none ∧ (∃ m, wm = some m)) ∨
        ((∃ p, pw = some p) ∧ un = none)) →
      (mqtt_pack_connection_request buf cid wt wm un pw cf ka).1 < 0 := by
  intro buf cid wt wm un pw cf ka h
  have hv : connect_violation cid wt wm un pw cf = true := by
    rcases h with ⟨⟨t, ht⟩, hm⟩ | ⟨ht, ⟨m, hm⟩⟩ | ⟨⟨p, hp⟩, hu⟩ <;>
      subst_vars <;> simp [connect_violation]
  have hc := pack_simple_contract buf
    (connect_violation cid wt wm un pw cf)
    (connect_bytes cid wt wm un pw cf ka)
    (connect_bytes_length_pos cid wt wm un pw cf ka)
  exact hc.1.mpr hv

theorem claim_C5_witness :
    (mqtt_pack_connection_request (List.replicate 20 0) [99] (some [116]) none
      none none 0 0).1 < 0 :=
  claim_C5_connect_presence_rules (List.replicate 20 0) [99] (some [116]) none
    none none 0 0 (Or.inl ⟨⟨[116], rfl⟩, rfl⟩)

theorem publish_bytes_shape (t : List Nat) (pid : Nat) (msg : List Nat) (pf : Nat) :
    publish_bytes t pid msg pf =
      fixed_header_bytes ⟨MQTT_CONTROL_PUBLISH, pf % 16,
          2 + t.length + (if publish_qos pf ≠ 0 then 2 else 0) + msg.length⟩ ++
        pack_str t ++ (if publish_qos pf ≠ 0 then u16be pid else []) ++ msg := by
  unfold publish_bytes
  by_cases hq : publish_qos pf = 0
  · simp [hq, pack_str_length]
  · simp [hq, pack_str_length, u16be]

/-- C6: for every successful PUBLISH call the packet's remaining length is
the size of the length-prefixed topic name (2 + its length), plus 2 for the
packet id exactly when the flags encode a nonzero QoS, plus the application
message size; the message bytes are written raw at the end with no length
prefix (a zero-length message is legal), and when the flags encode QoS 0
the output does not depend on the packet id argument at all. -/
theorem claim_C6_publish_remaining_length :
    ∀ buf t pid msg pf,
      (0 < (mqtt_pack_publish_request buf t pid msg pf).1 →
        (mqtt_pack_publish_request buf t pid msg pf).1 =
          ((fixed_header_bytes ⟨MQTT_CONTROL_PUBLISH, pf % 16,
              2 + t.length + (if publish_qos pf ≠ 0 then 2 else 0) + msg.length⟩).length +
            (2 + t.length + (if publish_qos pf ≠ 0 then 2 else 0) + msg.length) : Nat) ∧
        (mqtt_pack_publish_request buf t pid msg pf).2 =
          writeBytes buf
            (fixed_header_bytes ⟨MQTT_CONTROL_PUBLISH, pf % 16,
                2 + t.length + (if publish_qos pf ≠ 0 then 2 else 0) + msg.length⟩ ++
              pack_str t ++ (if publish_qos pf ≠ 0 then u16be pid else []) ++ msg)) ∧
      (publish_qos pf = 0 → ∀ pid2,
        mqtt_pack_publish_request buf t pid msg pf =
          mqtt_pack_publish_request buf t pid2 msg pf) := by
  intro buf t pid msg pf
  constructor
  · intro hpos
    have hc : obeys_contract (mqtt_pack_publish_request buf t pid msg pf) buf
        (publish_violation t msg pf) (publish_bytes t pid msg pf) :=
      pack_simple_contract buf _ _ (publish_bytes_length_pos t pid msg pf)
    obtain ⟨hret, hw, -⟩ := hc.2.2 hpos
    constructor
    · rw [hret, publish_bytes_shape t pid msg pf]
      by_cases hq : publish_qos pf = 0 <;>
        simp [hq, pack_str_length, u16be, fixed_header_bytes] <;> omega
    · rw [hw, publish_bytes_shape t pid msg pf]
  · intro hq pid2
    unfold mqtt_pack_publish_request
    congr 1
    unfold publish_bytes
    simp [hq]

theorem claim_C6_witness :
    (mqtt_pack_publish_request (List.replicate 10 0) [97] 3 [] 0).1 = 5 ∧
    mqtt_pack_publish_request (List.replicate 10 0) [97] 3 [] 0 =
      mqtt_pack_publish_request (List.replicate 10 0) [97] 99 [] 0 := by
  obtain ⟨h1, h2⟩ := claim_C6_publish_remaining_length (List.replicate 10 0) [97] 3 [] 0
  constructor
  · rw [(h1 (by decide)).1]
    decide
  · exact h2 (by decide) 99

theorem subscribe_entries_length (topics : List (List Nat × Nat)) :
    (subscribe_entries topics).length =
      (topics.map (fun e => 2 + e.1.length + 1)).sum := by
  induction topics with
  | nil => simp [subscribe_entries]
  | cons e rest ih =>
    simp [subscribe_entries, pack_str_length, ih]
    omega

theorem unsubscribe_entries_length (topics : List (List Nat)) :
    (unsubscribe_entries topics).length = (topics.map (fun n => 2 + n.length)).sum := by
  induction topics with
  | nil => simp [unsubscribe_entries]
  | cons n rest ih =>
    simp [unsubscribe_entries, pack_str_length, ih]

/-- C7: the SUBSCRIBE and UNSUBSCRIBE builders return a negative value for
zero topic entries and for more than 8 entries (never silently truncating);
on every successful call they emit the packet id followed by the entries in
exactly the caller-given order, with remaining length 2 plus, per entry,
2 + name length (plus 1 byte of requested maximum QoS for SUBSCRIBE). -/
theorem claim_C7_subscribe_unsubscribe_bounds_and_order :
    (∀ buf pid (topics : List (List Nat × Nat)),
      (topics = [] ∨ MQTT_SUBSCRIBE_REQUEST_MAX_NUM_TOPICS < topics.length) →
      (mqtt_pack_subscribe_request buf pid topics).1 < 0) ∧
    (∀ buf pid (topics : List (List Nat)),
      (topics = [] ∨ MQTT_SUBSCRIBE_REQUEST_MAX_NUM_TOPICS < topics.length) →
      (mqtt_pack_unsubscribe_request buf pid topics).1 < 0) ∧
    (∀ buf pid (topics : List (List Nat × Nat)),
      0 < (mqtt_pack_subscribe_request buf pid topics).1 →
      (mqtt_pack_subscribe_request buf pid topics).1 =
        ((fixed_header_bytes ⟨MQTT_CONTROL_SUBSCRIBE, 2,
            2 + (topics.map (fun e => 2 + e.1.length + 1)).sum⟩).length +
          (2 + (topics.map (fun e => 2 + e.1.length + 1)).sum) : Nat) ∧
      (mqtt_pack_subscribe_request buf pid topics).2 =
        writeBytes buf
          (fixed_header_bytes ⟨MQTT_CONTROL_SUBSCRIBE, 2,
              2 + (topics.map (fun e => 2 + e.1.length + 1)).sum⟩ ++
            u16be pid ++ subscribe_entries topics)) ∧
    (∀ buf pid (topics : List (List Nat)),
      0 < (mqtt_pack_unsubscribe_request buf pid topics).1 →
      (mqtt_pack_unsubscribe_request buf pid topics).1 =
        ((fixed_header_bytes ⟨MQTT_CONTROL_UNSUBSCRIBE, 2,
            2 + (topics.map (fun n => 2 + n.length)).sum⟩).length +
          (2 + (topics.map (fun n => 2 + n.length)).sum) : Nat) ∧
      (mqtt_pack_unsubscribe_request buf pid topics).2 =
        writeBytes buf
          (fixed_header_bytes ⟨MQTT_CONTROL_UNSUBSCRIBE, 2,
              2 + (topics.map (fun n => 2 + n.length)).sum⟩ ++
            u16be pid ++ unsubscribe_entries topics)) ∧
    (∀ (e : List Nat × Nat) rest,
      subscribe_entries (e :: rest) = pack_str e.1 ++ [e.2 % 256] ++ subscribe_entries rest) ∧
    (∀ (n : List Nat) rest,
      unsubscribe_entries (n :: rest) = pack_str n ++ unsubscribe_entries rest) := by
  refine ⟨?_, ?_, ?_, ?_, fun e rest => rfl, fun n rest => rfl⟩
  · intro buf pid topics h
    have hv : subscribe_violation topics = true := by
      rcases h with h | h <;> simp [subscribe_violation, h]
    have hc : obeys_contract (mqtt_pack_subscribe_request buf pid topics) buf
        (subscribe_violation topics) (subscribe_bytes pid topics) :=
      pack_simple_contract buf _ _ (subscribe_bytes_length_pos pid topics)
    exact hc.1.mpr hv
  · intro buf pid topics h
    have hv : unsubscribe_violation topics = true := by
      rcases h with h | h <;> simp [unsubscribe_violation, h]
    have hc : obeys_contract (mqtt_pack_unsubscribe_request buf pid topics) buf
        (unsubscribe_violation topics) (unsubscribe_bytes pid topics) :=
      pack_simple_contract buf _ _ (unsubscribe_bytes_length_pos pid topics)
    exact hc.1.mpr hv
  · intro buf pid topics hpos
    have hc : obeys_contract (mqtt_pack_subscribe_request buf pid topics) buf
        (subscribe_violation topics) (subscribe_bytes pid topics) :=
      pack_simple_contract buf _ _ (subscribe_bytes_length_pos pid topics)
    obtain ⟨hret, hw, -⟩ := hc.2.2 hpos
    constructor
    · rw [hret]
      simp [subscribe_bytes, subscribe_entries_length, u16be, fixed_header_bytes]
      omega
    · rw [hw]
      simp [subscribe_bytes, subscribe_entries_length]
  · intro buf pid topics hpos
    have hc : obeys_contract (mqtt_pack_unsubscribe_request buf pid topics) buf
        (unsubscribe_violation topics) (unsubscribe_bytes pid topics) :=
      pack_simple_contract buf _ _ (unsubscribe_bytes_length_pos pid topics)
    obtain ⟨hret, hw, -⟩ := hc.2.2 hpos
    constructor
    · rw [hret]
      simp [unsubscribe_bytes, unsubscribe_entries_length, u16be, fixed_header_bytes]
      omega
    · rw [hw]
      simp [unsubscribe_bytes, unsubscribe_entries_length]

theorem claim_C7_witness :
    (mqtt_pack_subscribe_request (List.replicate 40 0) 7
      ([] : List (List Nat × Nat))).1 < 0 ∧
    (mqtt_pack_unsubscribe_request (List.replicate 40 0) 7
      [[97], [98], [99], [100], [101], [102], [103], [104], [105]]).1 < 0 ∧
    (mqtt_pack_subscribe_request (List.replicate 40 0) 7 [([97], 1), ([98], 2)]).2 =
      writeBytes (List.replicate 40 0)
        (fixed_header_bytes ⟨MQTT_CONTROL_SUBSCRIBE, 2,
            2 + ([([97], 1), ([98], 2)].map (fun e => 2 + e.1.length + 1)).sum⟩ ++
          u16be 7 ++ subscribe_entries [([97], 1), ([98], 2)]) := by
  obtain ⟨hs0, hu0, hs, -, -, -⟩ := claim_C7_subscribe_unsubscribe_bounds_and_order
  refine ⟨hs0 (List.replicate 40 0) 7 [] (Or.inl rfl), ?_, ?_⟩
  · exact hu0 (List.replicate 40 0) 7
      [[97], [98], [99], [100], [101], [102], [103], [104], [105]] (Or.inr (by decide))
  · exact (hs (List.replicate 40 0) 7 [([97], 1), ([98], 2)] (by decide)).2

theorem pubxxx_bytes_explicit (ct pid : Nat) :
    pubxxx_bytes ct pid =
      [controlByte ct (pubxxx_flags ct), 2, pid / 256 % 256, pid % 256] := by
  have h2 : encodeVarint 2 = [2] := by decide
  simp [pubxxx_bytes, fixed_header_bytes, u16be, h2]

/-- C8: the PUBACK/PUBREC/PUBREL/PUBCOMP builder always produces a packet
with remaining length exactly 2 whose variable header is only the packet id;
the control flags are forced per type to 0x02 for PUBREL and 0x00 for the
other three (the builder takes no caller flags argument), and any other
control type, such as CONNECT, yields a negative return. -/
theorem claim_C8_pubxxx_fixed_shape :
    (∀ buf ct pid,
      pubxxx_bytes ct pid =
        [controlByte ct (if ct = MQTT_CONTROL_PUBREL then 2 else 0), 2,
          pid / 256 % 256, pid % 256] ∧
      (0 < (mqtt_pack_pubxxx_request buf ct pid).1 →
        (mqtt_pack_pubxxx_request buf ct pid).1 = 4 ∧
        (mqtt_pack_pubxxx_request buf ct pid).2 =
          writeBytes buf
            [controlByte ct (if ct = MQTT_CONTROL_PUBREL then 2 else 0), 2,
              pid / 256 % 256, pid % 256])) ∧
    (∀ buf ct pid,
      ¬(ct = MQTT_CONTROL_PUBACK ∨ ct = MQTT_CONTROL_PUBREC ∨
        ct = MQTT_CONTROL_PUBREL ∨ ct = MQTT_CONTROL_PUBCOMP) →
      (mqtt_pack_pubxxx_request buf ct pid).1 < 0) := by
  constructor
  · intro buf ct pid
    have hb : pubxxx_bytes ct pid =
        [controlByte ct (if ct = MQTT_CONTROL_PUBREL then 2 else 0), 2,
          pid / 256 % 256, pid % 256] := by
      rw [pubxxx_bytes_explicit]
      rfl
    refine ⟨hb, ?_⟩
    intro hpos
    have hc : obeys_contract (mqtt_pack_pubxxx_request buf ct pid) buf
        (pubxxx_violation ct) (pubxxx_bytes ct pid) :=
      pack_simple_contract buf _ _ (pubxxx_bytes_length_pos ct pid)
    obtain ⟨hret, hw, -⟩ := hc.2.2 hpos
    constructor
    · rw [hret, hb]
      rfl
    · rw [hw, hb]
  · intro buf ct pid h
    have hv : pubxxx_violation ct = true := by
      push_neg at h
      simp [pubxxx_violation]
      tauto
    have hc : obeys_contract (mqtt_pack_pubxxx_request buf ct pid) buf
        (pubxxx_violation ct) (pubxxx_bytes ct pid) :=
      pack_simple_contract buf _ _ (pubxxx_bytes_length_pos ct pid)
    exact hc.1.mpr hv

theorem claim_C8_witness :
    (mqtt_pack_pubxxx_request (List.replicate 6 0) MQTT_CONTROL_PUBREL 258).1 = 4 ∧
    (mqtt_pack_pubxxx_request (List.replicate 6 0) MQTT_CONTROL_PUBREL 258).2 =
      writeBytes (List.replicate 6 0)
        [controlByte MQTT_CONTROL_PUBREL
          (if MQTT_CONTROL_PUBREL = MQTT_CONTROL_PUBREL then 2 else 0), 2,
          258 / 256 % 256, 258 % 256] ∧
    (mqtt_pack_pubxxx_request (List.replicate 6 0) MQTT_CONTROL_CONNECT 258).1 < 0 := by
  obtain ⟨hok, hbad⟩ := claim_C8_pubxxx_fixed_shape
  obtain ⟨h1, h2⟩ := (hok (List.replicate 6 0) MQTT_CONTROL_PUBREL 258).2 (by decide)
  exact ⟨h1, h2, hbad (List.replicate 6 0) MQTT_CONTROL_CONNECT 258 (by decide)⟩

/-- C10: the QoS-0 flag constants of the source enumerations both evaluate
to 0, so OR-ing them into the flags argument of the CONNECT or PUBLISH
builder leaves the output byte-identical; will QoS occupies bits 3-4 of the
CONNECT flags byte and publish QoS occupies bits 1-2 of the PUBLISH
flags. -/
theorem claim_C10_qos0_identity :
    MQTT_CONNECT_WILL_QOS_0 = 0 ∧ MQTT_PUBLISH_QOS_0 = 0 ∧
    (∀ buf cid wt wm un pw cf ka,
      mqtt_pack_connection_request buf cid wt wm un pw
          (cf ||| MQTT_CONNECT_WILL_QOS_0) ka =
        mqtt_pack_connection_request buf cid wt wm un pw cf ka) ∧
    (∀ buf t pid msg pf,
      mqtt_pack_publish_request buf t pid msg (pf ||| MQTT_PUBLISH_QOS_0) =
        mqtt_pack_publish_request buf t pid msg pf) ∧
    MQTT_CONNECT_WILL_QOS_1 = 2 ^ 3 ∧ MQTT_CONNECT_WILL_QOS_2 = 2 ^ 4 ∧
    MQTT_PUBLISH_QOS_1 = 2 ^ 1 ∧ MQTT_PUBLISH_QOS_2 = 2 ^ 2 := by
  have hc0 : MQTT_CONNECT_WILL_QOS_0 = 0 := by decide
  have hp0 : MQTT_PUBLISH_QOS_0 = 0 := by decide
  refine ⟨hc0, hp0, ?_, ?_, by decide, by decide, by decide, by decide⟩
  · intro buf cid wt wm un pw cf ka
    rw [hc0, Nat.or_zero]
  · intro buf t pid msg pf
    rw [hp0, Nat.or_zero]
